import Mathlib

/-!
Verification of the scoring engine of the DAT-H repository (scorer.js).

Modelling conventions:
* JavaScript numbers are modelled as exact rationals, except that the value
  NaN (arising from arithmetic on undefined) is modelled explicitly by the
  type JNum below.  Floating-point rounding is not modelled; numeric literals
  such as 1e-9, 0.0001 and 1.5 are read as the exact rationals they denote.
* Math.exp is transcendental and therefore kept abstract: every definition
  that needs it takes an exponential function as an explicit parameter.  On
  NaN the parameter is required to behave like Math.exp (NaN maps to NaN),
  which is enforced structurally by the lifted type.
* Division by zero in JavaScript yields an infinity; the sole division in the
  Newton loop is guarded by the source so that its denominator is nonzero,
  and the probability denominator 1 + exp x is nonzero for a genuine
  exponential, so the rational convention q / 0 = 0 is never load bearing.
* The itemParameterMatrix.js table is an external data file of the repository
  and is passed in as an explicit association list parameter.
* The rationale display string of the result object is presentation only and
  is not modelled; no verified property concerns it.
-/

namespace DATH

/-- Decidable equality for Except values with decidable components, used by
the closed evaluations below. -/
instance exceptDecEq {ε α : Type} [DecidableEq ε] [DecidableEq α] :
    DecidableEq (Except ε α) := fun x y =>
  match x, y with
  | Except.error a, Except.error b =>
    if h : a = b then isTrue (by rw [h])
    else isFalse (fun hc => h (by injection hc))
  | Except.ok a, Except.ok b =>
    if h : a = b then isTrue (by rw [h])
    else isFalse (fun hc => h (by injection hc))
  | Except.error _, Except.ok _ => isFalse (fun hc => Except.noConfusion hc)
  | Except.ok _, Except.error _ => isFalse (fun hc => Except.noConfusion hc)

/-- Model of a JavaScript number that is either an actual (rational) number or
NaN.  NaN arises from arithmetic involving undefined, and every comparison
against NaN is false, as in JavaScript. -/
inductive JNum where
  | nan : JNum
  | num : ℚ → JNum
deriving DecidableEq, Repr

/-- Lift of a binary rational operation to JNum; NaN is absorbing, as for
JavaScript arithmetic on numbers. -/
def jbin (f : ℚ → ℚ → ℚ) : JNum → JNum → JNum
  | JNum.num a, JNum.num b => JNum.num (f a b)
  | _, _ => JNum.nan

/-- JavaScript addition on JNum. -/
def jadd : JNum → JNum → JNum := jbin (· + ·)

/-- JavaScript subtraction on JNum. -/
def jsub : JNum → JNum → JNum := jbin (· - ·)

/-- JavaScript multiplication on JNum. -/
def jmul : JNum → JNum → JNum := jbin (· * ·)

/-- JavaScript division on JNum (the guarded use sites never divide a number
by zero, see the header note). -/
def jdiv : JNum → JNum → JNum := jbin (· / ·)

/-- JavaScript unary minus on JNum. -/
def jneg : JNum → JNum
  | JNum.num a => JNum.num (-a)
  | JNum.nan => JNum.nan

/-- Model of Math.abs. -/
def jabsJ : JNum → JNum
  | JNum.num a => JNum.num |a|
  | JNum.nan => JNum.nan

/-- Model of Math.min on two arguments (NaN propagating). -/
def jminJ : JNum → JNum → JNum := jbin min

/-- Model of Math.max on two arguments (NaN propagating). -/
def jmaxJ : JNum → JNum → JNum := jbin max

/-- Model of Math.round: round half toward positive infinity, which on
rationals agrees with the Mathlib round function. -/
def jroundJ : JNum → JNum
  | JNum.num a => JNum.num ((round a : ℤ) : ℚ)
  | JNum.nan => JNum.nan

/-- JavaScript strict less-than comparison: false whenever either side is
NaN. -/
def jltB : JNum → JNum → Bool
  | JNum.num a, JNum.num b => decide (a < b)
  | _, _ => false

/-- JavaScript less-or-equal comparison: false whenever either side is
NaN. -/
def jleB : JNum → JNum → Bool
  | JNum.num a, JNum.num b => decide (a ≤ b)
  | _, _ => false

/-- JavaScript greater-or-equal comparison, written x >= y in the source. -/
def jgeB (x y : JNum) : Bool := jleB y x

/-- The eight cognitive function labels. -/
inductive Func where
  | Ti | Te | Fi | Fe | Si | Se | Ni | Ne
deriving DecidableEq, Repr

/-- Entry of the TYPE_FUNCTION_STACKS table: a type label together with its
ordered dominant, auxiliary, tertiary and inferior functions. -/
structure TypeStack where
  type : String
  dom : Func
  aux : Func
  ter : Func
  inf : Func
deriving DecidableEq, Repr

/-- The TYPE_FUNCTION_STACKS table of scorer.js (lines 6-15), in declaration
order, which is the iteration order of Object.entries on this object. -/
def TYPE_FUNCTION_STACKS : List TypeStack :=
  [ ⟨"INTP", Func.Ti, Func.Ne, Func.Si, Func.Fe⟩,
    ⟨"ENTP", Func.Ne, Func.Ti, Func.Fe, Func.Si⟩,
    ⟨"ISTP", Func.Ti, Func.Se, Func.Ni, Func.Fe⟩,
    ⟨"ESTP", Func.Se, Func.Ti, Func.Fe, Func.Ni⟩,
    ⟨"INFJ", Func.Ni, Func.Fe, Func.Ti, Func.Se⟩,
    ⟨"ENFJ", Func.Fe, Func.Ni, Func.Se, Func.Ti⟩,
    ⟨"INTJ", Func.Ni, Func.Te, Func.Fi, Func.Se⟩,
    ⟨"ENTJ", Func.Te, Func.Ni, Func.Se, Func.Fi⟩,
    ⟨"ISFP", Func.Fi, Func.Se, Func.Ni, Func.Te⟩,
    ⟨"ESFP", Func.Se, Func.Fi, Func.Te, Func.Ni⟩,
    ⟨"INFP", Func.Fi, Func.Ne, Func.Si, Func.Te⟩,
    ⟨"ENFP", Func.Ne, Func.Fi, Func.Te, Func.Si⟩,
    ⟨"ISTJ", Func.Si, Func.Te, Func.Fi, Func.Ne⟩,
    ⟨"ESTJ", Func.Te, Func.Si, Func.Ne, Func.Fi⟩,
    ⟨"ISFJ", Func.Si, Func.Fe, Func.Ti, Func.Ne⟩,
    ⟨"ESFJ", Func.Fe, Func.Si, Func.Ne, Func.Ti⟩ ]

/-- The three dichotomy names of DICHOTOMY_CONFIG (lines 17-21), in
declaration order.  The poles and tieBreaker fields of the configuration are
never read by the scoring code, so only the keys are modelled. -/
def DICHOTOMY_NAMES : List String := ["E-I", "S-N", "T-F"]

/-- The IRT_CLARITY_WEIGHT table (line 25), keyed by clarity category.  Keys
outside the table would read as undefined in JavaScript; the catch-all 0 is
unreachable because getPccCategory only ever produces the four keys. -/
def IRT_CLARITY_WEIGHT (pcc : String) : ℚ :=
  if pcc = "Slight" then 2
  else if pcc = "Moderate" then 4
  else if pcc = "Clear" then 6
  else if pcc = "Very Clear" then 8
  else 0

/-- The ATTITUDE_SCORE_WEIGHT constant (line 26). -/
def ATTITUDE_SCORE_WEIGHT : ℚ := 1

/-- The IRT a and b parameters of one item (the params field of an
itemParameterMatrix.js entry). -/
structure IrtParams where
  a : ℚ
  b : ℚ
deriving DecidableEq, Repr

/-- One entry of the itemParameterMatrix.js table: the dichotomy label and
the nested params object. -/
structure ItemParam where
  dichotomy : String
  params : IrtParams
deriving DecidableEq, Repr

/-- Model of the dichotomyToQuestionMap precomputation (lines 31-40): the
question indices of the table entries labelled with the given dichotomy, in
table order.  The guard that the dichotomy is one of the configured three is
part of the source loop. -/
def dichotomyQuestions (itemParams : List (ℕ × ItemParam)) (d : String) : List ℕ :=
  if d ∈ DICHOTOMY_NAMES then
    (itemParams.filter (fun p => p.2.dichotomy == d)).map Prod.fst
  else []

/-- One forced-choice option object of a question: the scoreKey property may
be absent, which JavaScript reads as undefined. -/
structure FCOpt where
  scoreKey : Option ℚ
deriving DecidableEq, Repr

/-- Metadata of one forced-choice question: the 1-based number and the map
from choice labels to option objects. -/
structure MbtiQuestion where
  number : ℕ
  options : String → Option FCOpt

/-- A recorded forced-choice answer: the selected choice label. -/
structure MbtiAnswer where
  choice : String
deriving DecidableEq, Repr

/-- One resolved item of the estimator: a and b parameters and the response
code u, which is NaN-valued when the scoreKey of the chosen option was
undefined (undefined enters arithmetic as NaN). -/
structure ItemJ where
  a : ℚ
  b : ℚ
  u : JNum
deriving DecidableEq, Repr

/-- Model of the probability helper (line 41):
1 / (1 + Math.exp(-a * (theta - b))). -/
def probJ (expJ : JNum → JNum) (theta : JNum) (a b : ℚ) : JNum :=
  jdiv (JNum.num 1)
    (jadd (JNum.num 1) (expJ (jmul (jneg (JNum.num a)) (jsub theta (JNum.num b)))))

/-- Model of getPccCategory (lines 42-44).  NaN input falls through every
comparison and lands on Slight. -/
def getPccCategory (pci : JNum) : String :=
  if jgeB pci (JNum.num 26) then "Very Clear"
  else if jgeB pci (JNum.num 16) then "Clear"
  else if jgeB pci (JNum.num 6) then "Moderate"
  else "Slight"

/-- The answered question indices of a dichotomy (lines 46-47): the indices
of the dichotomy whose 1-based successor has a recorded answer. -/
def answeredIndices (itemParams : List (ℕ × ItemParam))
    (answers : ℕ → Option MbtiAnswer) (d : String) : List ℕ :=
  (dichotomyQuestions itemParams d).filter (fun i => (answers (i + 1)).isSome)

/-- Model of the item resolution of lines 49-55.  A missing table entry, a
missing question record or a missing option entry makes the subsequent
property access throw a TypeError, modelled as an error; a present option
entry with an absent scoreKey does not throw and produces a NaN response
code. -/
def resolveItems (itemParams : List (ℕ × ItemParam))
    (answers : ℕ → Option MbtiAnswer) (allQuestions : List MbtiQuestion)
    (idxs : List ℕ) : Except String (List ItemJ) :=
  idxs.mapM (fun qIndex => do
    let some p := itemParams.lookup qIndex
      | Except.error "TypeError: cannot read properties of undefined"
    let some answer := answers (qIndex + 1)
      | Except.error "TypeError: cannot read properties of undefined"
    let some questionData := allQuestions.find? (fun q => q.number == qIndex + 1)
      | Except.error "TypeError: cannot read properties of undefined"
    let some opt := questionData.options answer.choice
      | Except.error "TypeError: cannot read properties of undefined"
    let u : JNum := match opt.scoreKey with
      | some q => JNum.num q
      | none => JNum.nan
    pure { a := p.params.a, b := p.params.b, u := u })

/-- Model of the Newton-Raphson loop of lines 56-68, with the remaining fuel
of the 20-iteration for loop made explicit.  The accumulations, the flat
second-derivative guard, the clamped update and the early convergence exit
follow the source statement for statement. -/
def newtonIterJ (expJ : JNum → JNum) (items : List ItemJ) (fuel : ℕ) (theta : JNum) : JNum :=
  match fuel with
  | 0 => theta
  | n + 1 =>
    let fd := items.foldl
      (fun acc it => jadd acc (jmul (JNum.num it.a) (jsub it.u (probJ expJ theta it.a it.b)))) (JNum.num 0)
    let sd := items.foldl
      (fun acc it => jadd acc
        (jmul (jmul (jmul (jneg (JNum.num it.a)) (JNum.num it.a))
          (jsub (JNum.num 1) (probJ expJ theta it.a it.b))) (probJ expJ theta it.a it.b))) (JNum.num 0)
    if jltB (jabsJ sd) (JNum.num (1 / 1000000000)) then theta
    else
      let newTheta := jsub theta (jdiv fd sd)
      let clampedTheta := jmaxJ (JNum.num (-3)) (jminJ (JNum.num 3) newTheta)
      if jltB (jabsJ (jsub clampedTheta theta)) (JNum.num (1 / 10000)) then clampedTheta
      else newtonIterJ expJ items n clampedTheta

/-- Model of findBestThetaForDichotomy (lines 45-70): resolve the answered
items of the dichotomy, return 0 when there are none, otherwise run the
Newton loop from theta 0 with 20 iterations of fuel. -/
def findBestThetaForDichotomy (expJ : JNum → JNum)
    (itemParams : List (ℕ × ItemParam)) (answers : ℕ → Option MbtiAnswer)
    (allQuestions : List MbtiQuestion) (d : String) : Except String JNum :=
  if (answeredIndices itemParams answers d).isEmpty then pure (JNum.num 0)
  else do
    let items ← resolveItems itemParams answers allQuestions
      (answeredIndices itemParams answers d)
    pure (newtonIterJ expJ items 20 (JNum.num 0))

/-- Model of the PCI computation of line 84:
theta === 0 ? 1 : Math.max(1, Math.round((Math.abs(theta) / 3.0) * 30)). -/
def pciOf (theta : JNum) : JNum :=
  if theta = JNum.num 0 then JNum.num 1
  else jmaxJ (JNum.num 1) (jroundJ (jmul (jdiv (jabsJ theta) (JNum.num 3)) (JNum.num 30)))

/-- A recorded Likert answer: the selected choice, modelled as an integer
with JavaScript numeric truthiness (the value 0 is falsy). -/
structure AttAnswer where
  choice : ℤ
deriving DecidableEq, Repr

/-- One construct of a Likert question; only the pole field is read by the
scorer. -/
structure Construct where
  pole : Func
deriving DecidableEq, Repr

/-- Metadata of one Likert question: the id and the two named constructs. -/
structure AttQuestion where
  id : ℕ
  construct1 : Construct
  construct2 : Construct
deriving DecidableEq, Repr

/-- The likertWeights table of line 91; choices outside the table read as
undefined, modelled as none. -/
def likertWeights (c : ℤ) : Option ℤ :=
  if c = 1 then some 2
  else if c = 2 then some 1
  else if c = 3 then some 0
  else if c = 4 then some (-1)
  else if c = 5 then some (-2)
  else none

/-- Pointwise update of a strength map: add d to the strength of pole p. -/
def addStrength (s : Func → ℚ) (p : Func) (d : ℚ) : Func → ℚ :=
  fun f => if f = p then s f + d else s f

/-- One step of the Likert fold of lines 92-99 for a single question.  An
absent answer, a falsy choice 0, a choice outside the weight table and the
neutral weight 0 all leave the strengths unchanged; a positive weight goes to
the construct1 pole, a negative weight adds its magnitude to the construct2
pole. -/
def likertStep (answers : ℕ → Option AttAnswer) (s : Func → ℚ)
    (q : AttQuestion) : Func → ℚ :=
  match answers q.id with
  | none => s
  | some a =>
    if a.choice = 0 then s
    else
      match likertWeights a.choice with
      | none => s
      | some w =>
        if 0 < w then addStrength s q.construct1.pole (w : ℚ)
        else if w < 0 then addStrength s q.construct2.pole ((|w| : ℤ) : ℚ)
        else s

/-- Model of the attitude strength aggregation of lines 90-99: fold all
Likert questions over the zero-initialised strength map. -/
def computeAttitudeStrengths (qs : List AttQuestion)
    (answers : ℕ → Option AttAnswer) : Func → ℚ :=
  qs.foldl (likertStep answers) (fun _ => 0)

/-- Model of the JavaScript string method startsWith used on the type label
(line 114), implemented over the character list so that closed evaluation
reduces. -/
def strStartsWith (s pre : String) : Bool := pre.data.isPrefixOf s.data

/-- Model of the JavaScript string method includes with a single character
(lines 115-116), implemented over the character list so that closed
evaluation reduces. -/
def strIncludes (s : String) (c : Char) : Bool := s.data.contains c

/-- Model of the per-type score of lines 109-129: the three clarity-weighted
signed theta alignment terms accumulated onto 0, plus the stack-position
weighted attitude score scaled by ATTITUDE_SCORE_WEIGHT.  The stack position
weights 4, 3, 1.5 and 1 are the ATTITUDE_STACK_POSITION_WEIGHT constants of
line 27. -/
def typeScore (eiTheta snTheta tfTheta : JNum) (eiW snW tfW : ℚ)
    (strengths : Func → ℚ) (ts : TypeStack) : JNum :=
  let eiMatch := if strStartsWith ts.type "E" then eiTheta else jneg eiTheta
  let snMatch := if strIncludes ts.type 'S' then snTheta else jneg snTheta
  let tfMatch := if strIncludes ts.type 'T' then tfTheta else jneg tfTheta
  let attitudeScore : ℚ :=
    strengths ts.dom * 4 + strengths ts.aux * 3 +
    strengths ts.ter * (3 / 2) + strengths ts.inf * 1
  jadd
    (jadd
      (jadd
        (jadd (JNum.num 0) (jmul eiMatch (JNum.num eiW)))
        (jmul snMatch (JNum.num snW)))
      (jmul tfMatch (JNum.num tfW)))
    (JNum.num (attitudeScore * ATTITUDE_SCORE_WEIGHT))

/-- JavaScript comparison currentScore > maxScore of line 132, where the
accumulator none models the initial maxScore of negative infinity paired
with the null bestFitType: every actual number exceeds negative infinity,
while NaN fails every comparison. -/
def jGtB (s : JNum) (acc : Option (String × JNum)) : Bool :=
  match acc with
  | none =>
    match s with
    | JNum.num _ => true
    | JNum.nan => false
  | some p => jltB p.2 s

/-- One step of the holistic scoring loop of lines 108-136: append the score
of this type to the score table and update the running best on a strict
improvement. -/
def scoreStep (f : TypeStack → JNum)
    (acc : List (String × JNum) × Option (String × JNum)) (ts : TypeStack) :
    List (String × JNum) × Option (String × JNum) :=
  let s := f ts
  (acc.1 ++ [(ts.type, s)], if jGtB s acc.2 then some (ts.type, s) else acc.2)

/-- The result object of calculateHybridResults (lines 145-154), without the
display-only rationale string. -/
structure HybridResult where
  finalType : String
  dominant : Func
  auxiliary : Func
  tertiary : Func
  inferior : Func
  score : JNum
  allTypeScores : List (String × JNum)
deriving DecidableEq, Repr

/-- Model of calculateHybridResults (lines 78-155).  The three dichotomies
are estimated in the declaration order of DICHOTOMY_CONFIG, the attitude
strengths are aggregated, each of the 16 stacks is scored while the running
maximum is tracked with a strict comparison, and the winning stack is looked
up to build the result.  When every score fails the comparison (all NaN) the
bestFitType stays null and the final stack indexing throws, modelled as an
error. -/
def calculateHybridResults (expJ : JNum → JNum)
    (itemParams : List (ℕ × ItemParam)) (mbtiAnswers : ℕ → Option MbtiAnswer)
    (attitudeAnswers : ℕ → Option AttAnswer)
    (allMbtiQuestions : List MbtiQuestion)
    (allAttitudeQuestions : List AttQuestion) : Except String HybridResult := do
  let eiTheta ← findBestThetaForDichotomy expJ itemParams mbtiAnswers allMbtiQuestions "E-I"
  let snTheta ← findBestThetaForDichotomy expJ itemParams mbtiAnswers allMbtiQuestions "S-N"
  let tfTheta ← findBestThetaForDichotomy expJ itemParams mbtiAnswers allMbtiQuestions "T-F"
  let eiW := IRT_CLARITY_WEIGHT (getPccCategory (pciOf eiTheta))
  let snW := IRT_CLARITY_WEIGHT (getPccCategory (pciOf snTheta))
  let tfW := IRT_CLARITY_WEIGHT (getPccCategory (pciOf tfTheta))
  let strengths := computeAttitudeStrengths allAttitudeQuestions attitudeAnswers
  let loop := TYPE_FUNCTION_STACKS.foldl
    (scoreStep (typeScore eiTheta snTheta tfTheta eiW snW tfW strengths))
    ([], none)
  match loop.2 with
  | none => Except.error "TypeError: cannot read properties of undefined"
  | some (bt, bs) =>
    match TYPE_FUNCTION_STACKS.find? (fun ts => ts.type == bt) with
    | none => Except.error "TypeError: cannot read properties of undefined"
    | some st =>
      pure { finalType := bt, dominant := st.dom, auxiliary := st.aux,
             tertiary := st.ter, inferior := st.inf, score := bs,
             allTypeScores := loop.1 }

/-- Model of getIrtClarityWeight of the alternate scorer source (part_000,
lines 80-83), the continuous clarity weight variant
2.15 * ln(pci) + 1 with a guard returning 1 for pci <= 0. -/
noncomputable def getIrtClarityWeight (pci : ℝ) : ℝ :=
  if pci ≤ 0 then 1 else 2.15 * Real.log pci + 1

/-- A resolved item with a numeric response code: the restriction of ItemJ
to well-formed metadata, where every chosen option carried a scoreKey. -/
structure ItemQ where
  a : ℚ
  b : ℚ
  u : ℚ
deriving DecidableEq, Repr

/-- Injection of a well-formed item into the JavaScript-number items. -/
def itemQtoJ (it : ItemQ) : ItemJ :=
  { a := it.a, b := it.b, u := JNum.num it.u }

/-- Lift of a rational exponential function to JNum, mapping NaN to NaN as
Math.exp does. -/
def liftExp (expF : ℚ → ℚ) : JNum → JNum
  | JNum.num q => JNum.num (expF q)
  | JNum.nan => JNum.nan

/-- The probability helper of line 41 restricted to numeric arguments. -/
def probQ (expF : ℚ → ℚ) (theta a b : ℚ) : ℚ :=
  1 / (1 + expF (-a * (theta - b)))

/-- The Newton-Raphson loop of lines 56-68 restricted to numeric items: the
exact computation the source performs when every response code resolved to a
number. -/
def newtonIterQ (expF : ℚ → ℚ) (items : List ItemQ) (fuel : ℕ) (theta : ℚ) : ℚ :=
  match fuel with
  | 0 => theta
  | n + 1 =>
    let fd := items.foldl
      (fun acc it => acc + it.a * (it.u - probQ expF theta it.a it.b)) 0
    let sd := items.foldl
      (fun acc it => acc + -it.a * it.a * (1 - probQ expF theta it.a it.b) * probQ expF theta it.a it.b) 0
    if |sd| < 1 / 1000000000 then theta
    else
      let newTheta := theta - fd / sd
      let clampedTheta := max (-3) (min 3 newTheta)
      if |clampedTheta - theta| < 1 / 10000 then clampedTheta
      else newtonIterQ expF items n clampedTheta

/-- The theta estimate of the source loop on numeric items, starting from 0
with 20 iterations of fuel. -/
def newtonTheta (expF : ℚ → ℚ) (items : List ItemQ) : ℚ :=
  newtonIterQ expF items 20 0

/-- First derivative as worded by the spec: the sum over answered items of
a * (u - P). -/
def specFirstDeriv (expF : ℚ → ℚ) (items : List ItemQ) (theta : ℚ) : ℚ :=
  (items.map (fun it => it.a * (it.u - probQ expF theta it.a it.b))).sum

/-- Second derivative as worded by the spec: the sum over answered items of
-(a squared) * (1 - P) * P. -/
def specSecondDeriv (expF : ℚ → ℚ) (items : List ItemQ) (theta : ℚ) : ℚ :=
  (items.map (fun it => -(it.a ^ 2) * (1 - probQ expF theta it.a it.b) * probQ expF theta it.a it.b)).sum

/-- The estimation procedure exactly as the spec words it in section 4.1:
start at theta 0; for up to 20 iterations accumulate the two derivative sums
with P given by the two-parameter logistic model; stop when the magnitude of
the second derivative is below 1e-9; otherwise take the Newton step, clamp to
the interval from -3 to 3, and stop after adopting the clamped value when it
changed theta by less than 1e-4. -/
def specNewtonGo (expF : ℚ → ℚ) (items : List ItemQ) (fuel : ℕ) (theta : ℚ) : ℚ :=
  match fuel with
  | 0 => theta
  | n + 1 =>
    let fd := specFirstDeriv expF items theta
    let sd := specSecondDeriv expF items theta
    if |sd| < 1 / 1000000000 then theta
    else
      let stepped := theta - fd / sd
      let clamped := max (-3) (min 3 stepped)
      if |clamped - theta| < 1 / 10000 then clamped
      else specNewtonGo expF items n clamped

/-- The spec-worded theta estimate: 20 iterations from theta 0. -/
def specNewtonTheta (expF : ℚ → ℚ) (items : List ItemQ) : ℚ :=
  specNewtonGo expF items 20 0

/-- Rational-level PCI, the restriction of pciOf to numeric theta. -/
def pciNum (t : ℚ) : ℤ :=
  if t = 0 then 1 else max 1 (round (|t| / 3 * 30))

/-- Concrete exponential stub used for closed evaluations: it maps 0 to 1,
exactly as Math.exp does, and propagates NaN like Math.exp.  In each closed
evaluation below it is only ever applied at the argument 0 or at NaN, so it
agrees with the real exponential there. -/
def expJ0 : JNum → JNum
  | JNum.num _ => JNum.num 1
  | JNum.nan => JNum.nan

/-- Concrete one-item parameter table used by the closed evaluations: item
index 0 measures E-I with a equal 1 and b equal 0. -/
def ipC3 : List (ℕ × ItemParam) := [(0, ⟨"E-I", ⟨1, 0⟩⟩)]

/-- Concrete answer set choosing option A for question 1. -/
def ansC3 : ℕ → Option MbtiAnswer := fun n => if n = 1 then some ⟨"A"⟩ else none

/-- Concrete malformed question metadata: question 1 has an option entry for
the choice A, but the entry carries no scoreKey. -/
def qsC3 : List MbtiQuestion :=
  [⟨1, fun c => if c = "A" then some ⟨none⟩ else none⟩]

/-- Concrete well-formed question metadata: question 1 has an option entry
for the choice A with scoreKey 1. -/
def qsC2 : List MbtiQuestion :=
  [⟨1, fun c => if c = "A" then some ⟨some 1⟩ else none⟩]

/-- Concrete three-item parameter table, one item per dichotomy. -/
def ip0 : List (ℕ × ItemParam) :=
  [(0, ⟨"E-I", ⟨1, 0⟩⟩), (1, ⟨"S-N", ⟨1, 0⟩⟩), (2, ⟨"T-F", ⟨1, 0⟩⟩)]

/-- Concrete well-formed forced-choice question metadata for ip0. -/
def qs0 : List MbtiQuestion :=
  [⟨1, fun c => if c = "A" then some ⟨some 1⟩ else none⟩,
   ⟨2, fun c => if c = "A" then some ⟨some 1⟩ else none⟩,
   ⟨3, fun c => if c = "A" then some ⟨some 1⟩ else none⟩]

/-- Concrete Likert question metadata with one question. -/
def aqs0 : List AttQuestion := [⟨100, ⟨Func.Ti⟩, ⟨Func.Ne⟩⟩]

/-- The 16-entry all-zero score table produced when every answer set is
empty, in the declaration order of TYPE_FUNCTION_STACKS. -/
def allZeroScores : List (String × JNum) :=
  [("INTP", JNum.num 0), ("ENTP", JNum.num 0), ("ISTP", JNum.num 0),
   ("ESTP", JNum.num 0), ("INFJ", JNum.num 0), ("ENFJ", JNum.num 0),
   ("INTJ", JNum.num 0), ("ENTJ", JNum.num 0), ("ISFP", JNum.num 0),
   ("ESFP", JNum.num 0), ("INFP", JNum.num 0), ("ENFP", JNum.num 0),
   ("ISTJ", JNum.num 0), ("ESTJ", JNum.num 0), ("ISFJ", JNum.num 0),
   ("ESFJ", JNum.num 0)]

/-! Computation rules for the JNum operations. -/

@[simp] lemma jadd_num (a b : ℚ) : jadd (JNum.num a) (JNum.num b) = JNum.num (a + b) := rfl

@[simp] lemma jsub_num (a b : ℚ) : jsub (JNum.num a) (JNum.num b) = JNum.num (a - b) := rfl

@[simp] lemma jmul_num (a b : ℚ) : jmul (JNum.num a) (JNum.num b) = JNum.num (a * b) := rfl

@[simp] lemma jdiv_num (a b : ℚ) : jdiv (JNum.num a) (JNum.num b) = JNum.num (a / b) := rfl

@[simp] lemma jneg_num (a : ℚ) : jneg (JNum.num a) = JNum.num (-a) := rfl

@[simp] lemma jabsJ_num (a : ℚ) : jabsJ (JNum.num a) = JNum.num |a| := rfl

@[simp] lemma jminJ_num (a b : ℚ) : jminJ (JNum.num a) (JNum.num b) = JNum.num (min a b) := rfl

@[simp] lemma jmaxJ_num (a b : ℚ) : jmaxJ (JNum.num a) (JNum.num b) = JNum.num (max a b) := rfl

@[simp] lemma jroundJ_num (a : ℚ) : jroundJ (JNum.num a) = JNum.num ((round a : ℤ) : ℚ) := rfl

@[simp] lemma jltB_num (a b : ℚ) : jltB (JNum.num a) (JNum.num b) = decide (a < b) := rfl

@[simp] lemma jleB_num (a b : ℚ) : jleB (JNum.num a) (JNum.num b) = decide (a ≤ b) := rfl

@[simp] lemma jadd_nan_left (x : JNum) : jadd JNum.nan x = JNum.nan := by cases x <;> rfl

@[simp] lemma jadd_nan_right (x : JNum) : jadd x JNum.nan = JNum.nan := by cases x <;> rfl

@[simp] lemma jsub_nan_left (x : JNum) : jsub JNum.nan x = JNum.nan := by cases x <;> rfl

@[simp] lemma jsub_nan_right (x : JNum) : jsub x JNum.nan = JNum.nan := by cases x <;> rfl

@[simp] lemma jmul_nan_left (x : JNum) : jmul JNum.nan x = JNum.nan := by cases x <;> rfl

@[simp] lemma jmul_nan_right (x : JNum) : jmul x JNum.nan = JNum.nan := by cases x <;> rfl

@[simp] lemma jdiv_nan_left (x : JNum) : jdiv JNum.nan x = JNum.nan := by cases x <;> rfl

@[simp] lemma jdiv_nan_right (x : JNum) : jdiv x JNum.nan = JNum.nan := by cases x <;> rfl

@[simp] lemma jminJ_nan_left (x : JNum) : jminJ JNum.nan x = JNum.nan := by cases x <;> rfl

@[simp] lemma jminJ_nan_right (x : JNum) : jminJ x JNum.nan = JNum.nan := by cases x <;> rfl

@[simp] lemma jmaxJ_nan_left (x : JNum) : jmaxJ JNum.nan x = JNum.nan := by cases x <;> rfl

@[simp] lemma jmaxJ_nan_right (x : JNum) : jmaxJ x JNum.nan = JNum.nan := by cases x <;> rfl

@[simp] lemma jneg_nan : jneg JNum.nan = JNum.nan := rfl

@[simp] lemma jabsJ_nan : jabsJ JNum.nan = JNum.nan := rfl

@[simp] lemma jroundJ_nan : jroundJ JNum.nan = JNum.nan := rfl

@[simp] lemma jltB_nan_left (x : JNum) : jltB JNum.nan x = false := by cases x <;> rfl

@[simp] lemma jltB_nan_right (x : JNum) : jltB x JNum.nan = false := by cases x <;> rfl

@[simp] lemma jleB_nan_left (x : JNum) : jleB JNum.nan x = false := by cases x <;> rfl

@[simp] lemma jleB_nan_right (x : JNum) : jleB x JNum.nan = false := by cases x <;> rfl

@[simp] lemma liftExp_num (expF : ℚ → ℚ) (q : ℚ) :
    liftExp expF (JNum.num q) = JNum.num (expF q) := rfl

@[simp] lemma liftExp_nan (expF : ℚ → ℚ) : liftExp expF JNum.nan = JNum.nan := rfl

lemma jleB_true_iff (x y : JNum) :
    jleB x y = true ↔ ∃ a b : ℚ, x = JNum.num a ∧ y = JNum.num b ∧ a ≤ b := by
  cases x <;> cases y <;> simp [jleB]

lemma jltB_true_iff (x y : JNum) :
    jltB x y = true ↔ ∃ a b : ℚ, x = JNum.num a ∧ y = JNum.num b ∧ a < b := by
  cases x <;> cases y <;> simp [jltB]

/-! Simulation of the JavaScript-number Newton loop by its rational
restriction on well-formed items. -/

lemma probJ_lift (expF : ℚ → ℚ) (t a b : ℚ) :
    probJ (liftExp expF) (JNum.num t) a b = JNum.num (probQ expF t a b) := by
  simp [probJ, probQ]

lemma foldl_jadd_map (fJ : ItemJ → JNum) (fQ : ItemQ → ℚ)
    (h : ∀ it : ItemQ, fJ (itemQtoJ it) = JNum.num (fQ it)) :
    ∀ (l : List ItemQ) (c : ℚ),
      (l.map itemQtoJ).foldl (fun acc x => jadd acc (fJ x)) (JNum.num c)
        = JNum.num (l.foldl (fun acc x => acc + fQ x) c)
  | [], _ => rfl
  | it :: l, c => by
    simp only [List.map_cons, List.foldl_cons, h it, jadd_num]
    exact foldl_jadd_map fJ fQ h l (c + fQ it)

lemma newtonIterJ_lift (expF : ℚ → ℚ) (items : List ItemQ) :
    ∀ (n : ℕ) (t : ℚ),
      newtonIterJ (liftExp expF) (items.map itemQtoJ) n (JNum.num t)
        = JNum.num (newtonIterQ expF items n t)
  | 0, _ => rfl
  | n + 1, t => by
    have hfd := foldl_jadd_map
      (fun x => jmul (JNum.num x.a) (jsub x.u (probJ (liftExp expF) (JNum.num t) x.a x.b)))
      (fun x => x.a * (x.u - probQ expF t x.a x.b))
      (fun it => by simp [itemQtoJ, probJ_lift]) items 0
    have hsd := foldl_jadd_map
      (fun x => jmul (jmul (jmul (jneg (JNum.num x.a)) (JNum.num x.a))
        (jsub (JNum.num 1) (probJ (liftExp expF) (JNum.num t) x.a x.b)))
        (probJ (liftExp expF) (JNum.num t) x.a x.b))
      (fun x => -x.a * x.a * (1 - probQ expF t x.a x.b) * probQ expF t x.a x.b)
      (fun it => by simp [itemQtoJ, probJ_lift]) items 0
    simp only [newtonIterJ, newtonIterQ, hfd, hsd, jabsJ_num, jltB_num, jsub_num,
      jdiv_num, jminJ_num, jmaxJ_num, decide_eq_true_eq]
    split
    · rfl
    · split
      · rfl
      · exact newtonIterJ_lift expF items n _

/-! Equality of the source loop with the spec-worded procedure. -/

lemma foldl_add_eq_sum (f : ItemQ → ℚ) :
    ∀ (l : List ItemQ) (c : ℚ), l.foldl (fun acc x => acc + f x) c = c + (l.map f).sum
  | [], c => by simp
  | x :: l, c => by
    simp only [List.foldl_cons, List.map_cons, List.sum_cons, foldl_add_eq_sum f l]
    ring

lemma newtonIterQ_eq_specGo (expF : ℚ → ℚ) (items : List ItemQ) :
    ∀ (n : ℕ) (t : ℚ), newtonIterQ expF items n t = specNewtonGo expF items n t
  | 0, _ => rfl
  | n + 1, t => by
    have h1 : items.foldl (fun acc it => acc + it.a * (it.u - probQ expF t it.a it.b)) 0
        = specFirstDeriv expF items t := by
      rw [foldl_add_eq_sum, zero_add, specFirstDeriv]
    have h2 : items.foldl
        (fun acc it => acc + -it.a * it.a * (1 - probQ expF t it.a it.b) * probQ expF t it.a it.b) 0
        = specSecondDeriv expF items t := by
      rw [foldl_add_eq_sum, zero_add, specSecondDeriv]
      congr 1
      apply List.map_congr_left
      intro it _
      ring
    simp only [newtonIterQ, specNewtonGo, h1, h2]
    split
    · rfl
    · split
      · rfl
      · exact newtonIterQ_eq_specGo expF items n _

/-- Claim C2: for every dichotomy with at least one answered forced-choice
question whose items resolve to numeric response codes,
findBestThetaForDichotomy computes theta by exactly the spec-worded Newton
procedure: start at theta 0, iterate at most 20 times accumulating the two
derivative sums, break on a flat second derivative below 1e-9, otherwise
clamp the Newton step to the interval from -3 to 3 and stop once the
adopted clamped value moves theta by less than 1e-4. -/
theorem findBestTheta_follows_spec (expF : ℚ → ℚ)
    (itemParams : List (ℕ × ItemParam)) (answers : ℕ → Option MbtiAnswer)
    (allQuestions : List MbtiQuestion) (d : String) (qitems : List ItemQ)
    (hne : answeredIndices itemParams answers d ≠ [])
    (hres : resolveItems itemParams answers allQuestions
      (answeredIndices itemParams answers d) = Except.ok (qitems.map itemQtoJ)) :
    findBestThetaForDichotomy (liftExp expF) itemParams answers allQuestions d
      = Except.ok (JNum.num (specNewtonTheta expF qitems)) := by
  unfold findBestThetaForDichotomy
  rw [if_neg (by simpa using hne)]
  rw [show (do
      let items ← resolveItems itemParams answers allQuestions
        (answeredIndices itemParams answers d)
      pure (newtonIterJ (liftExp expF) items 20 (JNum.num 0)) :
      Except String JNum)
    = Except.ok (newtonIterJ (liftExp expF) (qitems.map itemQtoJ) 20 (JNum.num 0)) by
      rw [hres]; rfl]
  rw [newtonIterJ_lift, newtonIterQ_eq_specGo]
  rfl

/-- Witness for C2 at a concrete one-item input with a constant exponential
stub: the pipeline and the spec procedure both give theta 3. -/
theorem findBestTheta_follows_spec_witness :
    findBestThetaForDichotomy (liftExp (fun _ => 1)) ipC3 ansC3 qsC2 "E-I"
      = Except.ok (JNum.num (specNewtonTheta (fun _ => 1) [⟨1, 0, 1⟩])) :=
  findBestTheta_follows_spec (fun _ => 1) ipC3 ansC3 qsC2 "E-I" [⟨1, 0, 1⟩]
    (by decide) (by decide)

/-- Clamping produces NaN or a number in the interval from -3 to 3. -/
lemma clamp_cases (x : JNum) :
    jmaxJ (JNum.num (-3)) (jminJ (JNum.num 3) x) = JNum.nan ∨
      ∃ q : ℚ, jmaxJ (JNum.num (-3)) (jminJ (JNum.num 3) x) = JNum.num q ∧
        -3 ≤ q ∧ q ≤ 3 := by
  cases x with
  | nan => exact Or.inl rfl
  | num q =>
    refine Or.inr ⟨max (-3) (min 3 q), by simp, le_max_left _ _, ?_⟩
    exact max_le (by norm_num) (min_le_left _ _)

/-- Every state the Newton loop can return is the initial state, NaN, or a
number already clamped into the interval from -3 to 3. -/
lemma newtonIterJ_bounds (expJ : JNum → JNum) (items : List ItemJ) :
    ∀ (n : ℕ) (t0 : JNum),
      newtonIterJ expJ items n t0 = t0 ∨ newtonIterJ expJ items n t0 = JNum.nan ∨
        ∃ q : ℚ, newtonIterJ expJ items n t0 = JNum.num q ∧ -3 ≤ q ∧ q ≤ 3
  | 0, _ => Or.inl rfl
  | n + 1, t0 => by
    simp only [newtonIterJ]
    split
    · exact Or.inl rfl
    · split
      · rcases clamp_cases (jsub t0 (jdiv _ _)) with h | ⟨q, hq, h1, h2⟩
        · exact Or.inr (Or.inl h)
        · exact Or.inr (Or.inr ⟨q, hq, h1, h2⟩)
      · rcases newtonIterJ_bounds expJ items n
          (jmaxJ (JNum.num (-3)) (jminJ (JNum.num 3) (jsub t0 (jdiv _ _)))) with h | h | h
        · rw [h]
          rcases clamp_cases (jsub t0 (jdiv _ _)) with h2 | ⟨q, hq, hq1, hq2⟩
          · exact Or.inr (Or.inl h2)
          · exact Or.inr (Or.inr ⟨q, hq, hq1, hq2⟩)
        · exact Or.inr (Or.inl h)
        · exact Or.inr (Or.inr h)

/-- Claim C4: whenever findBestThetaForDichotomy returns a numeric theta,
that theta lies in the closed interval from -3 to 3, for every exponential,
parameter table, answer set and question metadata. -/
theorem findBestTheta_in_range (expJ : JNum → JNum)
    (itemParams : List (ℕ × ItemParam)) (answers : ℕ → Option MbtiAnswer)
    (allQuestions : List MbtiQuestion) (d : String) (θ : ℚ)
    (h : findBestThetaForDichotomy expJ itemParams answers allQuestions d
      = Except.ok (JNum.num θ)) :
    -3 ≤ θ ∧ θ ≤ 3 := by
  unfold findBestThetaForDichotomy at h
  split at h
  · have h0 : JNum.num 0 = JNum.num θ := by
      simpa [pure, Except.pure] using h
    have : (0 : ℚ) = θ := by injection h0
    subst this
    norm_num
  · cases hres : resolveItems itemParams answers allQuestions
        (answeredIndices itemParams answers d) with
    | error e =>
      rw [hres] at h
      simp [Bind.bind, Except.bind] at h
    | ok items =>
      rw [hres] at h
      have hloop : newtonIterJ expJ items 20 (JNum.num 0) = JNum.num θ := by
        have := h
        simp only [Bind.bind, Except.bind, pure, Except.pure] at this
        injection this
      rcases newtonIterJ_bounds expJ items 20 (JNum.num 0) with h1 | h1 | ⟨q, hq, hq1, hq2⟩
      · rw [h1] at hloop
        have : (0 : ℚ) = θ := by injection hloop
        subst this
        norm_num
      · rw [h1] at hloop
        exact absurd hloop (by simp)
      · rw [hq] at hloop
        have : q = θ := by injection hloop
        subst this
        exact ⟨hq1, hq2⟩

/-- Witness for C4 at a concrete input returning theta 0. -/
theorem findBestTheta_in_range_witness : -3 ≤ (0 : ℚ) ∧ (0 : ℚ) ≤ 3 :=
  findBestTheta_in_range expJ0 [] (fun _ => none) [] "E-I" 0 (by decide)

/-- Claim C7: a dichotomy none of whose forced-choice questions carries a
recorded answer does not make the invocation fail: the estimator returns
theta 0 and the clarity category of that theta is Slight. -/
theorem unanswered_dichotomy_neutral (expJ : JNum → JNum)
    (itemParams : List (ℕ × ItemParam)) (answers : ℕ → Option MbtiAnswer)
    (allQuestions : List MbtiQuestion) (d : String)
    (h : ∀ i ∈ dichotomyQuestions itemParams d, answers (i + 1) = none) :
    findBestThetaForDichotomy expJ itemParams answers allQuestions d
      = Except.ok (JNum.num 0) ∧
    getPccCategory (pciOf (JNum.num 0)) = "Slight" := by
  refine ⟨?_, by decide⟩
  unfold findBestThetaForDichotomy
  have hemp : answeredIndices itemParams answers d = [] := by
    unfold answeredIndices
    refine List.filter_eq_nil_iff.mpr ?_
    intro i hi
    simp [h i hi]
  rw [if_pos (by rw [hemp]; rfl)]
  rfl

/-- Witness for C7 at a concrete table whose questions are all unanswered. -/
theorem unanswered_dichotomy_neutral_witness :
    findBestThetaForDichotomy expJ0 ip0 (fun _ => none) qs0 "E-I"
      = Except.ok (JNum.num 0) ∧
    getPccCategory (pciOf (JNum.num 0)) = "Slight" :=
  unanswered_dichotomy_neutral expJ0 ip0 (fun _ => none) qs0 "E-I" (by decide)

unseal Rat.add Rat.sub Rat.mul Rat.inv Rat.ofScientific in
/-- Claim C3 is refuted by the code: at a concrete answer set whose chosen
pole has an option entry without a scoreKey mapping, the invocation does not
fail fast with a descriptive error; the undefined scoreKey enters the
estimator as NaN and the call returns a silently corrupted NaN theta.  The
exponential stub agrees with Math.exp at every argument the run evaluates it
at (0 maps to 1 and NaN maps to NaN). -/
theorem missing_scorekey_is_silent :
    findBestThetaForDichotomy expJ0 ipC3 ansC3 qsC3 "E-I" = Except.ok JNum.nan := by
  decide

/-! Properties of the clarity index and category. -/

lemma pciOf_num (t : ℚ) : pciOf (JNum.num t) = JNum.num ((pciNum t : ℤ) : ℚ) := by
  unfold pciOf pciNum
  by_cases h : t = 0
  · simp [h]
  · rw [if_neg (by simpa using h), if_neg h]
    simp [Int.cast_max]

lemma pciNum_pos (t : ℚ) : 1 ≤ pciNum t := by
  unfold pciNum
  split
  · exact le_refl 1
  · exact le_max_left 1 _

lemma pciNum_le_30 (t : ℚ) (h1 : -3 ≤ t) (h2 : t ≤ 3) : pciNum t ≤ 30 := by
  unfold pciNum
  split
  · norm_num
  · refine max_le (by norm_num) ?_
    have habs : |t| ≤ 3 := abs_le.mpr ⟨h1, h2⟩
    have hx : |t| / 3 * 30 ≤ 30 := by nlinarith [abs_nonneg t]
    calc round (|t| / 3 * 30) ≤ round (30 : ℚ) := by
          rw [round_eq, round_eq]
          exact Int.floor_mono (by linarith)
      _ = 30 := by norm_num

lemma pciNum_mono (t1 t2 : ℚ) (h : |t1| ≤ |t2|) : pciNum t1 ≤ pciNum t2 := by
  unfold pciNum
  split
  · split
    · exact le_refl 1
    · exact le_max_left 1 _
  · split
    · rename_i ht1 ht2
      subst ht2
      simp only [abs_zero] at h
      exact absurd (abs_eq_zero.mp (le_antisymm h (abs_nonneg t1))) ht1
    · refine max_le (le_max_left 1 _) (le_max_of_le_right ?_)
      rw [round_eq, round_eq]
      apply Int.floor_mono
      have : |t1| / 3 * 30 ≤ |t2| / 3 * 30 := by nlinarith
      linarith

/-- Claim C5: the PCI of a numeric theta is given by the rational-level
formula pciNum; it is an integer between 1 and 30 whenever theta lies in the
interval from -3 to 3; the category thresholds are exact at the boundary
values 5, 6, 15, 16, 25 and 26; and the PCI is monotonically non-decreasing
in the magnitude of theta. -/
theorem pci_pcc_properties :
    (∀ t : ℚ, pciOf (JNum.num t) = JNum.num ((pciNum t : ℤ) : ℚ)) ∧
    (∀ t : ℚ, -3 ≤ t → t ≤ 3 → 1 ≤ pciNum t ∧ pciNum t ≤ 30) ∧
    (getPccCategory (JNum.num 5) = "Slight" ∧
     getPccCategory (JNum.num 6) = "Moderate" ∧
     getPccCategory (JNum.num 15) = "Moderate" ∧
     getPccCategory (JNum.num 16) = "Clear" ∧
     getPccCategory (JNum.num 25) = "Clear" ∧
     getPccCategory (JNum.num 26) = "Very Clear") ∧
    (∀ t1 t2 : ℚ, |t1| ≤ |t2| → pciNum t1 ≤ pciNum t2) := by
  refine ⟨pciOf_num, fun t h1 h2 => ⟨pciNum_pos t, pciNum_le_30 t h1 h2⟩, ?_, pciNum_mono⟩
  refine ⟨?_, ?_, ?_, ?_, ?_, ?_⟩ <;> decide

/-- Witness for C5 at theta 1: the PCI is between 1 and 30. -/
theorem pci_pcc_properties_witness : 1 ≤ pciNum 1 ∧ pciNum 1 ≤ 30 :=
  pci_pcc_properties.2.1 1 (by norm_num) (by norm_num)

/-! Non-negativity of the attitude strengths. -/

lemma likertStep_nonneg (answers : ℕ → Option AttAnswer) (s : Func → ℚ)
    (q : AttQuestion) (hs : ∀ g, 0 ≤ s g) : ∀ g, 0 ≤ likertStep answers s q g := by
  intro g
  rcases hA : answers q.id with _ | a
  · simp only [likertStep, hA]
    exact hs g
  · simp only [likertStep, hA]
    by_cases hc : a.choice = 0
    · rw [if_pos hc]
      exact hs g
    · rw [if_neg hc]
      rcases hw : likertWeights a.choice with _ | w
      · simp only [hw]
        exact hs g
      · simp only [hw]
        by_cases hp : 0 < w
        · rw [if_pos hp]
          unfold addStrength
          by_cases hg : g = q.construct1.pole
          · rw [if_pos hg]
            have hw0 : (0 : ℚ) ≤ (w : ℚ) := by exact_mod_cast hp.le
            linarith [hs g]
          · rw [if_neg hg]
            exact hs g
        · rw [if_neg hp]
          by_cases hn : w < 0
          · rw [if_pos hn]
            unfold addStrength
            by_cases hg : g = q.construct2.pole
            · rw [if_pos hg]
              have hw0 : (0 : ℚ) ≤ ((|w| : ℤ) : ℚ) := by positivity
              linarith [hs g]
            · rw [if_neg hg]
              exact hs g
          · rw [if_neg hn]
            exact hs g

lemma foldl_likert_nonneg (answers : ℕ → Option AttAnswer) :
    ∀ (qs : List AttQuestion) (s : Func → ℚ), (∀ g, 0 ≤ s g) →
      ∀ g, 0 ≤ qs.foldl (likertStep answers) s g
  | [], _, hs, g => hs g
  | q :: qs, s, hs, g =>
    foldl_likert_nonneg answers qs (likertStep answers s q)
      (likertStep_nonneg answers s q hs) g

/-- Claim C6: the attitude strength map built from the Likert fold assigns a
non-negative strength to every one of the 8 functions, for any answer set and
question list. -/
theorem attitude_strengths_nonneg (qs : List AttQuestion)
    (answers : ℕ → Option AttAnswer) (f : Func) :
    0 ≤ computeAttitudeStrengths qs answers f :=
  foldl_likert_nonneg answers qs (fun _ => 0) (fun _ => le_refl 0) f

/-- Claim C9: both clarity weight variants are monotone in the PCI on the
range from 1 to 30: the category table of scorer.js composed with
getPccCategory, and the continuous logarithmic curve getIrtClarityWeight of
the alternate source. -/
theorem clarity_weight_monotone (p1 p2 : ℚ) (h1 : 1 ≤ p1) (h12 : p1 ≤ p2)
    (h2 : p2 ≤ 30) :
    IRT_CLARITY_WEIGHT (getPccCategory (JNum.num p1))
      ≤ IRT_CLARITY_WEIGHT (getPccCategory (JNum.num p2)) ∧
    getIrtClarityWeight (p1 : ℝ) ≤ getIrtClarityWeight (p2 : ℝ) := by
  constructor
  · unfold getPccCategory jgeB
    simp only [jleB_num, decide_eq_true_eq]
    split_ifs <;> simp [IRT_CLARITY_WEIGHT] <;> linarith
  · unfold getIrtClarityWeight
    have hp1 : (0 : ℝ) < (p1 : ℚ) := by exact_mod_cast lt_of_lt_of_le one_pos h1
    have hp2 : (0 : ℝ) < (p2 : ℚ) := by
      exact_mod_cast lt_of_lt_of_le one_pos (le_trans h1 h12)
    rw [if_neg (by linarith), if_neg (by linarith)]
    have hlog : Real.log (p1 : ℚ) ≤ Real.log (p2 : ℚ) :=
      Real.log_le_log hp1 (by exact_mod_cast h12)
    nlinarith

/-- Witness for C9 at the PCI pair 1 and 30. -/
theorem clarity_weight_monotone_witness :
    IRT_CLARITY_WEIGHT (getPccCategory (JNum.num 1))
      ≤ IRT_CLARITY_WEIGHT (getPccCategory (JNum.num 30)) ∧
    getIrtClarityWeight ((1 : ℚ) : ℝ) ≤ getIrtClarityWeight ((30 : ℚ) : ℝ) :=
  clarity_weight_monotone 1 30 (by norm_num) (by norm_num) (by norm_num)

/-! A Likert choice outside the weight table contributes nothing. -/

lemma likertWeights_bad (c : ℤ) (hc : c ∉ ([1, 2, 3, 4, 5] : List ℤ)) :
    likertWeights c = none := by
  simp only [List.mem_cons, List.mem_singleton, not_or] at hc
  obtain ⟨h1, h2, h3, h4, h5, -⟩ := hc
  unfold likertWeights
  rw [if_neg h1, if_neg h2, if_neg h3, if_neg h4, if_neg h5]

lemma likertStep_ext (ans1 ans2 : ℕ → Option AttAnswer) (k : ℕ) (c : ℤ)
    (hw : likertWeights c = none)
    (h1 : ans1 k = some ⟨c⟩) (h2 : ans2 k = none)
    (hagree : ∀ i, i ≠ k → ans1 i = ans2 i) :
    ∀ (s : Func → ℚ) (q : AttQuestion), likertStep ans1 s q = likertStep ans2 s q := by
  intro s q
  by_cases hq : q.id = k
  · simp only [likertStep, hq, h1, h2]
    by_cases hc0 : c = 0
    · rw [if_pos hc0]
    · rw [if_neg hc0]
      simp only [hw]
  · have := hagree q.id hq
    simp only [likertStep, this]

lemma foldl_likert_ext (g1 g2 : (Func → ℚ) → AttQuestion → Func → ℚ)
    (h : ∀ s q, g1 s q = g2 s q) :
    ∀ (l : List AttQuestion) (s : Func → ℚ), l.foldl g1 s = l.foldl g2 s
  | [], _ => rfl
  | q :: l, s => by
    rw [List.foldl_cons, List.foldl_cons, h s q]
    exact foldl_likert_ext g1 g2 h l _

/-- Claim C10: an answered Likert question whose recorded choice lies outside
the weight table domain contributes nothing and raises no error: the entire
invocation returns exactly what it returns when that question is unanswered,
so a complete result is still produced. -/
theorem bad_likert_choice_ignored (expJ : JNum → JNum)
    (itemParams : List (ℕ × ItemParam)) (mbtiAnswers : ℕ → Option MbtiAnswer)
    (attitudeAnswers : ℕ → Option AttAnswer)
    (allMbtiQuestions : List MbtiQuestion)
    (allAttitudeQuestions : List AttQuestion) (k : ℕ) (c : ℤ)
    (hc : c ∉ ([1, 2, 3, 4, 5] : List ℤ)) :
    calculateHybridResults expJ itemParams mbtiAnswers
      (fun i => if i = k then some ⟨c⟩ else attitudeAnswers i)
      allMbtiQuestions allAttitudeQuestions
    = calculateHybridResults expJ itemParams mbtiAnswers
      (fun i => if i = k then none else attitudeAnswers i)
      allMbtiQuestions allAttitudeQuestions := by
  have hstr : computeAttitudeStrengths allAttitudeQuestions
      (fun i => if i = k then some ⟨c⟩ else attitudeAnswers i)
    = computeAttitudeStrengths allAttitudeQuestions
      (fun i => if i = k then none else attitudeAnswers i) := by
    apply foldl_likert_ext
    apply likertStep_ext _ _ k c (likertWeights_bad c hc) (by simp) (by simp)
    intro i hi
    simp [hi]
  simp only [calculateHybridResults, hstr]

/-! The holistic scoring loop: the returned score is the running maximum of
the score table and belongs to it. -/

lemma scoreFold_fst (f : TypeStack → JNum) :
    ∀ (l : List TypeStack) (acc : List (String × JNum) × Option (String × JNum)),
      (l.foldl (scoreStep f) acc).1 = acc.1 ++ l.map (fun ts => (ts.type, f ts))
  | [], acc => by simp
  | ts :: l, acc => by
    rw [List.foldl_cons, scoreFold_fst f l]
    simp [scoreStep]

lemma scoreFold_best_mem (f : TypeStack → JNum) :
    ∀ (l : List TypeStack) (acc : List (String × JNum) × Option (String × JNum))
      (t : String) (s : JNum),
      (l.foldl (scoreStep f) acc).2 = some (t, s) →
      ((t, s) ∈ l.map (fun ts => (ts.type, f ts)) ∨ acc.2 = some (t, s))
  | [], _, _, _ => fun h => Or.inr h
  | ts :: l, acc, t, s => fun h => by
    rw [List.foldl_cons] at h
    rcases scoreFold_best_mem f l (scoreStep f acc ts) t s h with h1 | h1
    · exact Or.inl (List.mem_cons_of_mem _ h1)
    · simp only [scoreStep] at h1
      by_cases hgt : jGtB (f ts) acc.2
      · rw [if_pos hgt] at h1
        injection h1 with h1
        exact Or.inl (by rw [List.map_cons, ← h1]; exact List.mem_cons_self _ _)
      · rw [if_neg hgt] at h1
        exact Or.inr h1

lemma scoreFold_none (f : TypeStack → JNum) :
    ∀ (l : List TypeStack) (acc : List (String × JNum) × Option (String × JNum)),
      (∀ ts ∈ l, f ts = JNum.nan) → acc.2 = none →
      (l.foldl (scoreStep f) acc).2 = none
  | [], _, _, h0 => h0
  | ts :: l, acc, hl, h0 => by
    rw [List.foldl_cons]
    apply scoreFold_none f l _ (fun x hx => hl x (List.mem_cons_of_mem ts hx))
    simp only [scoreStep]
    rw [hl ts (List.mem_cons_self ts l), h0]
    simp [jGtB]

lemma scoreFold_best_ge (f : TypeStack → JNum) :
    ∀ (l : List TypeStack) (acc : List (String × JNum) × Option (String × JNum)),
      (∀ ts ∈ l, ∃ q : ℚ, f ts = JNum.num q) →
      (∀ t0 s0, acc.2 = some (t0, s0) → ∃ m : ℚ, s0 = JNum.num m) →
      ∀ t s, (l.foldl (scoreStep f) acc).2 = some (t, s) →
        (∀ pr ∈ l.map (fun ts => (ts.type, f ts)), jleB pr.2 s = true) ∧
        (∀ t0 s0, acc.2 = some (t0, s0) → jleB s0 s = true)
  | [], acc, _, hacc, t, s => by
    intro h
    rw [List.foldl_nil] at h
    refine ⟨by simp, ?_⟩
    intro t0 s0 h0
    rw [h0] at h
    obtain ⟨m, hm⟩ := hacc t0 s0 h0
    injection h with h
    injection h with h1 h2
    rw [← h2, hm]
    simp
  | ts :: l, acc, hl, hacc, t, s => by
    intro h
    rw [List.foldl_cons] at h
    obtain ⟨qx, hqx⟩ := hl ts (List.mem_cons_self ts l)
    have hacc2 : ∀ t0 s0, (scoreStep f acc ts).2 = some (t0, s0) →
        ∃ m : ℚ, s0 = JNum.num m := by
      intro t0 s0 h0
      simp only [scoreStep] at h0
      by_cases hgt : jGtB (f ts) acc.2
      · rw [if_pos hgt] at h0
        injection h0 with h0
        injection h0 with h0a h0b
        exact ⟨qx, by rw [← h0b, hqx]⟩
      · rw [if_neg hgt] at h0
        exact hacc t0 s0 h0
    obtain ⟨ih1, ih2⟩ := scoreFold_best_ge f l (scoreStep f acc ts)
      (fun x hx => hl x (List.mem_cons_of_mem ts hx)) hacc2 t s h
    constructor
    · intro pr hpr
      rw [List.map_cons] at hpr
      rcases List.mem_cons.mp hpr with hpr | hpr
      · subst hpr
        by_cases hgt : jGtB (f ts) acc.2
        · exact ih2 ts.type (f ts) (by simp only [scoreStep]; rw [if_pos hgt])
        · cases hacc0 : acc.2 with
          | none =>
            rw [hacc0, hqx] at hgt
            exact absurd rfl hgt
          | some p =>
            obtain ⟨t1, s1⟩ := p
            rw [hacc0] at hgt
            obtain ⟨m0, hm0⟩ := hacc t1 s1 hacc0
            have hle : jleB s1 s = true :=
              ih2 t1 s1 (by simp only [scoreStep]; rw [hacc0, if_neg hgt])
            rw [hm0] at hle
            obtain ⟨a, b, ha, hb, hab⟩ := (jleB_true_iff _ _).mp hle
            have ha2 : m0 = a := by injection ha
            rw [hqx, hm0] at hgt
            have hqm : qx ≤ m0 := by
              simp only [jGtB, jltB_num] at hgt
              exact le_of_not_lt (by simpa using hgt)
            show jleB (ts.type, f ts).2 s = true
            rw [show (ts.type, f ts).2 = f ts from rfl, hqx, hb]
            simp only [jleB_num, decide_eq_true_eq]
            rw [ha2] at hqm
            linarith
      · exact ih1 pr hpr
    · intro t0 s0 h0
      by_cases hgt : jGtB (f ts) acc.2
      · have hnew : jleB (f ts) s = true :=
          ih2 ts.type (f ts) (by simp only [scoreStep]; rw [if_pos hgt])
        obtain ⟨m0, hm0⟩ := hacc t0 s0 h0
        rw [hqx] at hnew
        obtain ⟨a, b, ha, hb, hab⟩ := (jleB_true_iff _ _).mp hnew
        have ha2 : qx = a := by injection ha
        rw [h0, hm0, hqx] at hgt
        simp only [jGtB, jltB_num, decide_eq_true_eq] at hgt
        rw [hm0, hb]
        simp only [jleB_num, decide_eq_true_eq]
        rw [← ha2] at hab
        linarith
      · exact ih2 t0 s0 (by simp only [scoreStep]; rw [if_neg hgt]; exact h0)

lemma typeScore_num (a b c eiW snW tfW : ℚ) (strengths : Func → ℚ) (ts : TypeStack) :
    ∃ q : ℚ, typeScore (JNum.num a) (JNum.num b) (JNum.num c) eiW snW tfW
      strengths ts = JNum.num q := by
  simp only [typeScore]
  split <;> split <;> split <;> exact ⟨_, rfl⟩

lemma typeScore_nan (e s3 t3 : JNum) (eiW snW tfW : ℚ) (strengths : Func → ℚ)
    (ts : TypeStack) (h : e = JNum.nan ∨ s3 = JNum.nan ∨ t3 = JNum.nan) :
    typeScore e s3 t3 eiW snW tfW strengths ts = JNum.nan := by
  rcases h with h | h | h <;> subst h <;> simp [typeScore]

/-- Claim C1: whenever calculateHybridResults returns a result, the pair of
its final type and score is an entry of the recorded per-type score table,
and the score is greater than or equal to every recorded score, i.e. it is
the exact maximum of the 16 recorded scores. -/
theorem calc_score_is_max (expJ : JNum → JNum)
    (itemParams : List (ℕ × ItemParam)) (mbtiAnswers : ℕ → Option MbtiAnswer)
    (attitudeAnswers : ℕ → Option AttAnswer)
    (allMbtiQuestions : List MbtiQuestion)
    (allAttitudeQuestions : List AttQuestion) (r : HybridResult)
    (h : calculateHybridResults expJ itemParams mbtiAnswers attitudeAnswers
      allMbtiQuestions allAttitudeQuestions = Except.ok r) :
    ((r.finalType, r.score) ∈ r.allTypeScores ∧
      ∀ pr ∈ r.allTypeScores, jleB pr.2 r.score = true) := by
  unfold calculateHybridResults at h
  cases hei : findBestThetaForDichotomy expJ itemParams mbtiAnswers allMbtiQuestions "E-I" with
  | error e => rw [hei] at h; simp [Bind.bind, Except.bind] at h
  | ok te =>
  rw [hei] at h
  cases hsn : findBestThetaForDichotomy expJ itemParams mbtiAnswers allMbtiQuestions "S-N" with
  | error e => rw [hsn] at h; simp [Bind.bind, Except.bind] at h
  | ok ts3 =>
  rw [hsn] at h
  cases htf : findBestThetaForDichotomy expJ itemParams mbtiAnswers allMbtiQuestions "T-F" with
  | error e => rw [htf] at h; simp [Bind.bind, Except.bind] at h
  | ok tt =>
  rw [htf] at h
  simp only [Bind.bind, Except.bind] at h
  split at h
  · simp at h
  · rename_i bt bs hloop
    split at h
    · simp at h
    · rename_i st hfind
      simp only [pure, Except.pure, Except.ok.injEq] at h
      subst h
      by_cases hnan : te = JNum.nan ∨ ts3 = JNum.nan ∨ tt = JNum.nan
      · exfalso
        have := scoreFold_none
          (typeScore te ts3 tt (IRT_CLARITY_WEIGHT (getPccCategory (pciOf te)))
            (IRT_CLARITY_WEIGHT (getPccCategory (pciOf ts3)))
            (IRT_CLARITY_WEIGHT (getPccCategory (pciOf tt)))
            (computeAttitudeStrengths allAttitudeQuestions attitudeAnswers))
          TYPE_FUNCTION_STACKS ([], none)
          (fun x _ => typeScore_nan te ts3 tt _ _ _ _ x hnan) rfl
        rw [this] at hloop
        exact Option.noConfusion hloop
      · push_neg at hnan
        obtain ⟨hne, hns, hnt⟩ := hnan
        obtain ⟨qe, hqe⟩ : ∃ q, te = JNum.num q := by
          cases te with
          | nan => exact absurd rfl hne
          | num q => exact ⟨q, rfl⟩
        obtain ⟨qs, hqs⟩ : ∃ q, ts3 = JNum.num q := by
          cases ts3 with
          | nan => exact absurd rfl hns
          | num q => exact ⟨q, rfl⟩
        obtain ⟨qt, hqt⟩ : ∃ q, tt = JNum.num q := by
          cases tt with
          | nan => exact absurd rfl hnt
          | num q => exact ⟨q, rfl⟩
        subst hqe hqs hqt
        have hnums : ∀ x ∈ TYPE_FUNCTION_STACKS, ∃ q : ℚ,
            typeScore (JNum.num qe) (JNum.num qs) (JNum.num qt)
              (IRT_CLARITY_WEIGHT (getPccCategory (pciOf (JNum.num qe))))
              (IRT_CLARITY_WEIGHT (getPccCategory (pciOf (JNum.num qs))))
              (IRT_CLARITY_WEIGHT (getPccCategory (pciOf (JNum.num qt))))
              (computeAttitudeStrengths allAttitudeQuestions attitudeAnswers) x
            = JNum.num q :=
          fun x _ => typeScore_num qe qs qt
            (IRT_CLARITY_WEIGHT (getPccCategory (pciOf (JNum.num qe))))
            (IRT_CLARITY_WEIGHT (getPccCategory (pciOf (JNum.num qs))))
            (IRT_CLARITY_WEIGHT (getPccCategory (pciOf (JNum.num qt))))
            (computeAttitudeStrengths allAttitudeQuestions attitudeAnswers) x
        constructor
        · rcases scoreFold_best_mem _ TYPE_FUNCTION_STACKS ([], none) bt bs hloop with hm | hm
          · simpa [scoreFold_fst] using hm
          · exact absurd hm (by simp)
        · intro pr hpr
          obtain ⟨hge, -⟩ := scoreFold_best_ge _ TYPE_FUNCTION_STACKS ([], none)
            hnums (by simp) bt bs hloop
          apply hge
          simpa [scoreFold_fst] using hpr

unseal Rat.add Rat.sub Rat.mul Rat.inv Rat.ofScientific in
/-- Witness for C1 at the empty input, whose result is the all-zero table
with first type INTP. -/
theorem calc_score_is_max_witness :
    (("INTP", JNum.num 0) ∈ allZeroScores ∧
      ∀ pr ∈ allZeroScores, jleB pr.2 (JNum.num 0) = true) := by
  have h : calculateHybridResults expJ0 [] (fun _ => none) (fun _ => none) [] []
      = Except.ok ⟨"INTP", Func.Ti, Func.Ne, Func.Si, Func.Fe, JNum.num 0,
          allZeroScores⟩ := by decide
  exact calc_score_is_max expJ0 [] (fun _ => none) (fun _ => none) [] [] _ h

unseal Rat.add Rat.sub Rat.mul Rat.inv Rat.ofScientific in
/-- Claim C8: with zero answered forced-choice questions and zero answered
Likert questions, every dichotomy gets theta 0 with clarity category Slight,
the attitude strength map is all zeros, all 16 types tie at score 0 in the
recorded table, and the strict-improvement tie-break makes the first declared
type INTP the final type. -/
theorem scenario_no_answers :
    (∀ d ∈ DICHOTOMY_NAMES,
      findBestThetaForDichotomy expJ0 ip0 (fun _ => none) qs0 d
        = Except.ok (JNum.num 0)) ∧
    getPccCategory (pciOf (JNum.num 0)) = "Slight" ∧
    (∀ f : Func, computeAttitudeStrengths aqs0 (fun _ => none) f = 0) ∧
    calculateHybridResults expJ0 ip0 (fun _ => none) (fun _ => none) qs0 aqs0
      = Except.ok ⟨"INTP", Func.Ti, Func.Ne, Func.Si, Func.Fe, JNum.num 0,
          allZeroScores⟩ := by
  refine ⟨by decide, by decide, ?_, by decide⟩
  intro f
  cases f <;> decide

/-- Witness for C10 at the out-of-domain choice 7. -/
theorem bad_likert_choice_ignored_witness :
    calculateHybridResults expJ0 [] (fun _ => none)
      (fun i => if i = 1 then some ⟨7⟩ else (fun _ => none) i) [] aqs0
    = calculateHybridResults expJ0 [] (fun _ => none)
      (fun i => if i = 1 then none else (fun _ => none) i) [] aqs0 :=
  bad_likert_choice_ignored expJ0 [] (fun _ => none) (fun _ => none) [] aqs0 1 7
    (by decide)

end DATH
